import Mathlib

/-!
Shallow embedding of `aeronet/dataset/raster/band.py`: the `Band` and
`BandSample` classes, their windowing, tiling, resampling and reprojection
arithmetic, and the temporary-file lifecycle.  Pixel values and transform
coefficients are modelled as rationals; arrays as (nested) lists; the external
collaborators (raster codec, warp engine, default-transform computation, CRS
parsing, UTM-zone selection, random temporary names) are passed in as explicit
black-box arguments, matching the spec's statement that they are out of scope.
-/

namespace Aeronet

/-- Six-parameter affine transform (a, b, c, d, e, f) taking pixel coordinates
to world coordinates, mirroring rasterio's `Affine` as used in band.py. -/
structure Affine where
  a : ℚ
  b : ℚ
  c : ℚ
  d : ℚ
  e : ℚ
  f : ℚ
deriving DecidableEq, Repr

/-- Modelled from the spec: a coordinate reference system is a black-box
value type supporting equality and a validity check (spec sections 1 and 6);
we carry an identifier and the validity bit. -/
structure CRS where
  ident : ℕ
  is_valid : Bool
deriving DecidableEq, Repr

/-- Errors raised on the embedded code paths: rasterio's `CRSError` and the
shape-mismatch failure of `band_shape_guard`. -/
inductive AeroErr where
  | crsError
  | shapeError
deriving DecidableEq, Repr

/-- A pixel array of rank 2 or 3, as handed to `band_shape_guard`. -/
inductive NDArray where
  | d2 : List (List ℚ) → NDArray
  | d3 : List (List (List ℚ)) → NDArray
deriving DecidableEq, Repr

/-- Modelled from the spec: `band_shape_guard` (imported from `_utils`, not
under src/) accepts a 2-D (H,W) or 3-D (1,H,W) array and rejects any other
rank or a leading dimension other than 1 with a shape-mismatch failure
(spec section 4.1).  The stored raster is the 2-D (H,W) plane, which is what
the `BandSample.width`/`height` accessors in band.py (raster.shape[1] /
raster.shape[0], lines 291-297) require. -/
def band_shape_guard : NDArray → Except AeroErr (List (List ℚ))
  | .d2 m => .ok m
  | .d3 [m] => .ok m
  | .d3 _ => .error .shapeError

/-- In-memory sample: name, 2-D pixel raster, nodata, affine transform and crs
(band.py lines 265-277, after the shape guard has run). -/
structure BandSample where
  name : String
  raster : List (List ℚ)
  nodata : ℚ
  transform : Affine
  crs : CRS
deriving DecidableEq, Repr

/-- `BandSample.__init__` (band.py 265-277): the raster passes
`band_shape_guard`, then the crs validity check runs; an invalid crs raises
`CRSError`. -/
def BandSample.make (name : String) (raster : NDArray) (crs : CRS)
    (transform : Affine) (nodata : ℚ) : Except AeroErr BandSample :=
  match band_shape_guard raster with
  | .error e => .error e
  | .ok m =>
      if crs.is_valid then .ok ⟨name, m, nodata, transform, crs⟩
      else .error .crsError

/-- `BandSample.height`: raster.shape[0] (band.py 295-297). -/
def BandSample.height (s : BandSample) : ℕ := s.raster.length

/-- `BandSample.width`: raster.shape[1] (band.py 291-293). -/
def BandSample.width (s : BandSample) : ℕ := (s.raster.headD []).length

/-- `BandSample.res`: (|transform.a|, |transform.e|) (band.py 311-313). -/
def BandSample.res (s : BandSample) : ℚ × ℚ := (|s.transform.a|, |s.transform.e|)

/-- The ordered rectangle returned by the bounds properties. -/
structure BoundingBox where
  left : ℚ
  bottom : ℚ
  right : ℚ
  top : ℚ
deriving DecidableEq, Repr

/-- `BandSample.bounds` (band.py 327-333). -/
def BandSample.bounds (s : BandSample) : BoundingBox :=
  let left := s.transform.c
  let top := s.transform.f
  let right := left + s.transform.a * (s.width : ℚ)
  let bottom := top + s.transform.e * (s.height : ℚ)
  ⟨left, bottom, right, top⟩

/-- `BandSample.same` (band.py 346-360): crs is compared with `other`, while
transform, height and width are each compared with `self`. -/
def BandSample.same (s other : BandSample) : Bool :=
  decide (s.crs = other.crs) && decide (s.transform = s.transform)
    && decide (s.height = s.height) && decide (s.width = s.width)

/-- Python list slicing l[a:b] for nonnegative bounds. -/
def pySlice (l : List α) (a b : ℕ) : List α := (l.take b).drop a

/-- `BandSample.sample` (band.py 381-400): windowed transform plus a plain
(truncating) slice of the in-memory raster, then the constructor. -/
def BandSample.sample (s : BandSample) (y x height width : ℕ) :
    Except AeroErr BandSample :=
  let coord_x := s.transform.c + (x : ℚ) * s.transform.a
  let coord_y := s.transform.f + (y : ℚ) * s.transform.e
  let dst_transform : Affine :=
    ⟨s.transform.a, s.transform.b, coord_x, s.transform.d, s.transform.e, coord_y⟩
  let dst_raster := (pySlice s.raster y (y + height)).map (fun row => pySlice row x (x + width))
  BandSample.make s.name (.d2 dst_raster) s.crs dst_transform s.nodata

/-- Python `int()` applied to a rational: truncation toward zero. -/
def pyInt (q : ℚ) : ℤ := if 0 ≤ q then ⌊q⌋ else ⌈q⌉

/-- Python `round()` applied to a rational: round half to even. -/
def pyRound (q : ℚ) : ℤ :=
  if q - (⌊q⌋ : ℚ) < 1 / 2 then ⌊q⌋
  else if 1 / 2 < q - (⌊q⌋ : ℚ) then ⌊q⌋ + 1
  else if ⌊q⌋ % 2 = 0 then ⌊q⌋ else ⌊q⌋ + 1

/-- `BandSample.resample` (band.py 452-490).  `dst_res` is the positional
(first, second) pair exactly as indexed in the source; the warp engine's
output pixels are supplied by the black-box argument `warped`, written into a
fresh (1, target_height, target_width) buffer. -/
def BandSample.resample (s : BandSample) (dst_res : Option (ℚ × ℚ))
    (dst_shape : Option (ℕ × ℕ × ℕ)) (warped : ℕ → ℕ → ℚ) :
    Except AeroErr BandSample :=
  let t := s.transform
  let transform : Affine :=
    match dst_res with
    | none => t
    | some r => ⟨r.2, t.b, t.c, t.d, -r.1, t.f⟩
  let target : ℕ × ℕ :=
    match dst_res, dst_shape with
    | some r, none =>
        ((pyInt ((s.height : ℚ) * s.res.1 / r.1)).toNat,
         (pyInt ((s.width : ℚ) * s.res.2 / r.2)).toNat)
    | _, some sh => (sh.2.1, sh.2.2)
    | none, none => (s.height, s.width)
  let new_raster :=
    [(List.range target.1).map (fun i => (List.range target.2).map (fun j => warped i j))]
  BandSample.make s.name (.d3 new_raster) s.crs transform s.nodata

/-- The `dst_crs` argument of the reproject methods: either a CRS value or a
string (the literal utm string selects the automatic utm zone). -/
inductive CRSInput where
  | str : String → CRSInput
  | crs : CRS → CRSInput

/-- Resolution of the `dst_crs` argument (band.py 184-187 and 413-417): the
literal utm string selects the externally computed utm zone, any other string
goes through `CRS.from_user_input` (the external `parse` argument). -/
def resolveCRS (dst : CRSInput) (parse : String → CRS) (utm : CRS) : CRS :=
  match dst with
  | .str s => if s = "utm" then utm else parse s
  | .crs c => c

/-- Externally visible side effects of the reproject paths, used to state that
validation failures happen before any output is produced. -/
inductive RepEffect where
  | createFile : String → RepEffect
  | warpInvoked : RepEffect
deriving DecidableEq, Repr

/-- `BandSample.reproject` (band.py 402-436): resolve and validate the crs,
then obtain `(transform, width, height)` from the external
`calculate_default_transform` (argument `calc`), allocate the
(1, dst_height, dst_width) buffer filled by the warp engine (argument
`warped`) and build the result through the constructor.  The effect list
records whether the warp engine was invoked. -/
def BandSample.reproject (s : BandSample) (dst : CRSInput) (parse : String → CRS)
    (utm : CRS) (calcDT : Affine × ℕ × ℕ) (warped : ℕ → ℕ → ℚ) :
    Except AeroErr BandSample × List RepEffect :=
  let dst_crs := resolveCRS dst parse utm
  if dst_crs.is_valid then
    let new_raster :=
      [(List.range calcDT.2.2).map (fun i => (List.range calcDT.2.1).map (fun j => warped i j))]
    (BandSample.make s.name (.d3 new_raster) dst_crs calcDT.1 s.nodata, [.warpInvoked])
  else (.error .crsError, [])

/-- The metadata and pixels behind an open rasterio dataset handle (the
external raster codec): dimensions, transform, crs, optional nodata and the
in-range pixel function. -/
structure RasterFile where
  width : ℕ
  height : ℕ
  transform : Affine
  crs : CRS
  nodata : Option ℚ
  data : ℕ → ℕ → ℚ

/-- `Band` (band.py 17-28): an open handle plus the path it was opened from
and the temporary-file flag. -/
structure Band where
  band : RasterFile
  fp : String
  tmp_file : Bool

/-- `Band.__init__` (band.py 21-28): rasterio.open is the external codec,
modelled by handing over the `RasterFile` it yields for the path; the
temporary-file flag starts false. -/
def Band.init (rf : RasterFile) (fp : String) : Band := ⟨rf, fp, false⟩

/-- os.path.basename followed by splitting on the dot, as in `Band.name`
(band.py 69-72). -/
def pathName (fp : String) : String :=
  (((fp.splitOn "/").getLastD "").splitOn ".").headD ""

/-- `Band.name` (band.py 69-72). -/
def Band.name (bd : Band) : String := pathName bd.fp

/-- basename applied to an already extension-free name (band.py 113), kept as
the faithful no-op wrapper. -/
def pathBasename (s : String) : String := (s.splitOn "/").getLastD ""

/-- Modelled from the spec: the `res` property of the external raster handle,
the pixel size (|a|, |e|) along each axis (spec section 4.1). -/
def Band.res (bd : Band) : ℚ × ℚ := (|bd.band.transform.a|, |bd.band.transform.e|)

/-- The boundless windowed read (band.py 118-119) performed by the external
codec: a (1, height, width) array whose out-of-range cells hold fill_value
(spec sections 4.2 and 6). -/
def boundlessRead (rf : RasterFile) (y x height width : ℕ) (fill : ℚ) :
    List (List (List ℚ)) :=
  [(List.range height).map (fun i => (List.range width).map (fun j =>
    if y + i < rf.height ∧ x + j < rf.width then rf.data (y + i) (x + j) else fill))]

/-- `Band.sample` (band.py 101-123). -/
def Band.sample (bd : Band) (y x height width : ℕ) : Except AeroErr BandSample :=
  let t := bd.band.transform
  let coord_x := t.c + (x : ℚ) * t.a
  let coord_y := t.f + (y : ℚ) * t.e
  let dst_nodata := bd.band.nodata.getD 0
  let dst_transform : Affine := ⟨t.a, t.b, coord_x, t.d, t.e, coord_y⟩
  let dst_raster := boundlessRead bd.band y x height width dst_nodata
  BandSample.make (pathBasename bd.name) (.d3 dst_raster) bd.band.crs dst_transform dst_nodata

/-- `TMP_DIR` (band.py 14). -/
def TMP_DIR : String := "/tmp/raster"

/-- `Band.resample` (band.py 125-170): the random directory name and the warp
engine's written pixels are external inputs (`rnd`, `warp`); when `fp` is none
a temporary path is generated and the returned `Band` owns it. -/
def Band.resample (bd : Band) (dst_res : ℚ × ℚ) (fp : Option String)
    (rnd : String) (warp : ℕ → ℕ → ℚ) : Band :=
  let tmp_file := fp.isNone
  let path := fp.getD (TMP_DIR ++ "/resampled/" ++ rnd ++ "/" ++ bd.name ++ ".tif")
  let t := bd.band.transform
  let transform : Affine := ⟨dst_res.1, t.b, t.c, t.d, -dst_res.2, t.f⟩
  let width := (pyRound ((bd.band.width : ℚ) / (dst_res.1 / bd.res.1))).toNat
  let height := (pyRound ((bd.band.height : ℚ) / (dst_res.2 / bd.res.2))).toNat
  { band := { width := width, height := height, transform := transform,
              crs := bd.band.crs, nodata := bd.band.nodata, data := warp },
    fp := path, tmp_file := tmp_file }

/-- `Band.reproject` (band.py 172-225): crs resolution and validity check run
first; on success the external `calculate_default_transform` output
(`calc` = (transform, width, height)) parameterises the written file, created
at `fp` or at a fresh temporary path; the effect list records the file
creation and the warp invocation, in order. -/
def Band.reproject (bd : Band) (dst : CRSInput) (fp : Option String) (rnd : String)
    (parse : String → CRS) (utm : CRS) (calcDT : Affine × ℕ × ℕ) (warp : ℕ → ℕ → ℚ) :
    Except AeroErr Band × List RepEffect :=
  let dst_crs := resolveCRS dst parse utm
  if dst_crs.is_valid then
    let tmp_file := fp.isNone
    let path := fp.getD (TMP_DIR ++ "/reprojected_" ++ toString dst_crs.ident ++
      "/" ++ rnd ++ "/" ++ bd.name ++ ".tif")
    (.ok { band := { width := calcDT.2.1, height := calcDT.2.2, transform := calcDT.1,
                     crs := dst_crs, nodata := bd.band.nodata, data := warp },
           fp := path, tmp_file := tmp_file },
     [.createFile path, .warpInvoked])
  else (.error .crsError, [])

/-- Filesystem actions taken by `Band.__del__`. -/
inductive FsEffect where
  | closeHandle : String → FsEffect
  | removeFile : String → FsEffect
deriving DecidableEq, Repr

/-- `Band.__del__` (band.py 30-34): close the handle, then remove the backing
file exactly when the temporary flag is set. -/
def Band.del (bd : Band) : List FsEffect :=
  .closeHandle bd.fp :: (if bd.tmp_file then [.removeFile bd.fp] else [])

/-- ceil(n / k) on naturals, written (n + k - 1) / k. -/
def ceilDivNat (n k : ℕ) : ℕ := (n + k - 1) / k

/-- Python range(0, stop, step) for positive step. -/
def pyRange (stop step : ℕ) : List ℕ :=
  (List.range (ceilDivNat stop step)).map (fun i => i * step)

/-- The grid of window origins (x, y) enumerated by `generate_samples`. -/
def gridOrigins (W H w h : ℕ) : List (ℕ × ℕ) :=
  (pyRange W w).flatMap (fun x => (pyRange H h).map (fun y => (x, y)))

/-- `Band.generate_samples` (band.py 245-257). -/
def Band.generate_samples (bd : Band) (width height : ℕ) :
    List (Except AeroErr BandSample) :=
  (pyRange bd.band.width width).flatMap (fun x =>
    (pyRange bd.band.height height).map (fun y => bd.sample y x height width))

/-- `BandSample.generate_samples` (band.py 495-507). -/
def BandSample.generate_samples (s : BandSample) (width height : ℕ) :
    List (Except AeroErr BandSample) :=
  (pyRange s.width width).flatMap (fun x =>
    (pyRange s.height height).map (fun y => s.sample y x height width))

/-- A valid CRS used in the concrete scenarios. -/
def crsA : CRS := ⟨4326, true⟩

/-- A second, distinct valid CRS. -/
def crsB : CRS := ⟨32637, true⟩

/-- An invalid CRS. -/
def crsBad : CRS := ⟨0, false⟩

/-- The 100 by 100 band of the spec scenarios, transform (1,0,0,0,-1,0), no
nodata value set, constant pixel value 7. -/
def band100 : Band :=
  { band := { width := 100, height := 100, transform := ⟨1, 0, 0, 0, -1, 0⟩,
              crs := crsA, nodata := none, data := fun _ _ => 7 },
    fp := "/data/band100.tif", tmp_file := false }

/-- A small 5 by 3 band with a nodata value, used for tiling witnesses. -/
def band5 : Band :=
  { band := { width := 5, height := 3, transform := ⟨1, 0, 0, 0, -1, 0⟩,
              crs := crsA, nodata := some 9, data := fun i j => (i : ℚ) * 10 + (j : ℚ) },
    fp := "/data/band5.tif", tmp_file := false }

/-- A concrete 2 by 2 in-memory sample. -/
def sampleA : BandSample :=
  { name := "a", raster := [[1, 2], [3, 4]], nodata := 0,
    transform := ⟨1, 0, 0, 0, -1, 0⟩, crs := crsA }

/-- A sample identical to `sampleA` except for its crs. -/
def sampleB : BandSample :=
  { name := "b", raster := [[1, 2], [3, 4]], nodata := 0,
    transform := ⟨1, 0, 0, 0, -1, 0⟩, crs := crsB }

/-! ## Helper lemmas -/

lemma headD_map_range {α : Type} (f : ℕ → α) (n : ℕ) (hn : 0 < n) (d : α) :
    ((List.range n).map f).headD d = f 0 := by
  obtain ⟨m, rfl⟩ := Nat.exists_eq_succ_of_ne_zero hn.ne'
  rw [List.range_succ_eq_map]
  simp

lemma getD_map_range {α : Type} (f : ℕ → α) (n i : ℕ) (hi : i < n) (d : α) :
    ((List.range n).map f).getD i d = f i := by
  rw [List.getD_eq_getElem?_getD, List.getElem?_map, List.getElem?_range hi]
  rfl

lemma band_sample_eq (bd : Band) (y x h w : ℕ) :
    Band.sample bd y x h w =
      if bd.band.crs.is_valid then
        .ok ⟨pathBasename bd.name,
             (List.range h).map (fun i => (List.range w).map (fun j =>
               if y + i < bd.band.height ∧ x + j < bd.band.width then
                 bd.band.data (y + i) (x + j)
               else bd.band.nodata.getD 0)),
             bd.band.nodata.getD 0,
             ⟨bd.band.transform.a, bd.band.transform.b,
              bd.band.transform.c + (x : ℚ) * bd.band.transform.a,
              bd.band.transform.d, bd.band.transform.e,
              bd.band.transform.f + (y : ℚ) * bd.band.transform.e⟩,
             bd.band.crs⟩
      else .error .crsError := by
  cases hv : bd.band.crs.is_valid <;>
    simp [Band.sample, BandSample.make, band_shape_guard, boundlessRead, hv]

lemma bandsample_sample_eq (s : BandSample) (y x h w : ℕ) :
    BandSample.sample s y x h w =
      if s.crs.is_valid then
        .ok ⟨s.name,
             (pySlice s.raster y (y + h)).map (fun row => pySlice row x (x + w)),
             s.nodata,
             ⟨s.transform.a, s.transform.b,
              s.transform.c + (x : ℚ) * s.transform.a,
              s.transform.d, s.transform.e,
              s.transform.f + (y : ℚ) * s.transform.e⟩,
             s.crs⟩
      else .error .crsError := by
  cases hv : s.crs.is_valid <;>
    simp [BandSample.sample, BandSample.make, band_shape_guard, hv]

lemma length_pyRange (stop step : ℕ) :
    (pyRange stop step).length = ceilDivNat stop step := by
  simp [pyRange]

lemma mem_pyRange {stop step xx : ℕ} :
    xx ∈ pyRange stop step ↔ ∃ i, i < ceilDivNat stop step ∧ xx = i * step := by
  simp [pyRange, List.mem_map, List.mem_range, eq_comm]

lemma mem_gridOrigins {W H w h : ℕ} {q : ℕ × ℕ} :
    q ∈ gridOrigins W H w h ↔ q.1 ∈ pyRange W w ∧ q.2 ∈ pyRange H h := by
  obtain ⟨a, b⟩ := q
  simp only [gridOrigins, List.mem_flatMap, List.mem_map]
  constructor
  · rintro ⟨xx, hxx, yy, hyy, heq⟩
    obtain ⟨rfl, rfl⟩ := Prod.mk.injEq .. ▸ And.intro (congrArg Prod.fst heq) (congrArg Prod.snd heq)
    exact ⟨hxx, hyy⟩
  · rintro ⟨ha, hb⟩
    exact ⟨a, ha, b, hb, rfl⟩

lemma length_gridOrigins (W H w h : ℕ) :
    (gridOrigins W H w h).length = ceilDivNat W w * ceilDivNat H h := by
  simp only [gridOrigins, List.length_flatMap, List.map_map, Function.comp_def,
    List.length_map, length_pyRange]
  rw [List.map_const', List.sum_replicate, smul_eq_mul, length_pyRange, mul_comm]

lemma ceilDivNat_eq_succ {W w : ℕ} (hw : 0 < w) (hW : 0 < W) :
    ceilDivNat W w = (W - 1) / w + 1 := by
  have h1 : W + w - 1 = (W - 1) + w := by omega
  rw [ceilDivNat, h1, Nat.add_div_right _ hw]

lemma pyRange_cover {W w p : ℕ} (hw : 0 < w) (hp : p < W) :
    ∃! xx, xx ∈ pyRange W w ∧ xx ≤ p ∧ p < xx + w := by
  have hW : 0 < W := lt_of_le_of_lt (Nat.zero_le p) hp
  have hmem : p / w * w ∈ pyRange W w := by
    rw [mem_pyRange]
    refine ⟨p / w, ?_, rfl⟩
    have h1 : p / w ≤ (W - 1) / w := Nat.div_le_div_right (by omega)
    have h2 := ceilDivNat_eq_succ hw hW
    omega
  have hle : p / w * w ≤ p := Nat.div_mul_le_self p w
  have hlt : p < p / w * w + w := by
    have hmod : p % w < w := Nat.mod_lt p hw
    calc p = w * (p / w) + p % w := (Nat.div_add_mod p w).symm
    _ < w * (p / w) + w := Nat.add_lt_add_left hmod _
    _ = p / w * w + w := by ring
  refine ⟨p / w * w, ⟨hmem, hle, hlt⟩, ?_⟩
  rintro yy ⟨hymem, hy1, hy2⟩
  rw [mem_pyRange] at hymem
  obtain ⟨i, hi, rfl⟩ := hymem
  have hdiv : p / w = i := Nat.div_eq_of_lt_le hy1 (by
    calc p < i * w + w := hy2
    _ = (i + 1) * w := by ring)
  rw [hdiv]

lemma grid_cover {W H w h px py : ℕ} (hw : 0 < w) (hh : 0 < h)
    (hx : px < W) (hy : py < H) :
    ∃! q : ℕ × ℕ, q ∈ gridOrigins W H w h ∧
      q.1 ≤ px ∧ px < q.1 + w ∧ q.2 ≤ py ∧ py < q.2 + h := by
  obtain ⟨x0, ⟨hx0m, hx0a, hx0b⟩, hx0u⟩ := pyRange_cover hw hx
  obtain ⟨y0, ⟨hy0m, hy0a, hy0b⟩, hy0u⟩ := pyRange_cover hh hy
  refine ⟨(x0, y0), ⟨mem_gridOrigins.mpr ⟨hx0m, hy0m⟩, hx0a, hx0b, hy0a, hy0b⟩, ?_⟩
  rintro ⟨a, b⟩ ⟨hmem, h1, h2, h3, h4⟩
  rw [mem_gridOrigins] at hmem
  have ha := hx0u a ⟨hmem.1, h1, h2⟩
  have hb := hy0u b ⟨hmem.2, h3, h4⟩
  simp [ha, hb]

lemma gridOrigins_as_ranges (W H w h : ℕ) :
    gridOrigins W H w h =
      (List.range (ceilDivNat W w)).flatMap (fun i =>
        (List.range (ceilDivNat H h)).map (fun j => (i * w, j * h))) := by
  simp only [gridOrigins, pyRange, List.flatMap_map, List.map_map]
  rfl

lemma band_generate_samples_as_grid (bd : Band) (w h : ℕ) :
    Band.generate_samples bd w h =
      (gridOrigins bd.band.width bd.band.height w h).map
        (fun q => Band.sample bd q.2 q.1 h w) := by
  simp only [Band.generate_samples, gridOrigins, List.map_flatMap, List.map_map]
  rfl

lemma bandsample_generate_samples_as_grid (s : BandSample) (w h : ℕ) :
    BandSample.generate_samples s w h =
      (gridOrigins s.width s.height w h).map
        (fun q => BandSample.sample s q.2 q.1 h w) := by
  simp only [BandSample.generate_samples, gridOrigins, List.map_flatMap, List.map_map]
  rfl

lemma bandsample_resample_res_eq (s : BandSample) (p q : ℚ) (warped : ℕ → ℕ → ℚ)
    (hv : s.crs.is_valid = true) :
    BandSample.resample s (some (p, q)) none warped =
      .ok ⟨s.name,
        (List.range (pyInt ((s.height : ℚ) * s.res.1 / p)).toNat).map (fun i =>
          (List.range (pyInt ((s.width : ℚ) * s.res.2 / q)).toNat).map (fun j => warped i j)),
        s.nodata,
        ⟨q, s.transform.b, s.transform.c, s.transform.d, -p, s.transform.f⟩,
        s.crs⟩ := by
  simp [BandSample.resample, BandSample.make, band_shape_guard, hv]

lemma bandsample_resample_shape_eq (s : BandSample) (dres : Option (ℚ × ℚ))
    (sh : ℕ × ℕ × ℕ) (warped : ℕ → ℕ → ℚ) (hv : s.crs.is_valid = true) :
    BandSample.resample s dres (some sh) warped =
      .ok ⟨s.name,
        (List.range sh.2.1).map (fun i => (List.range sh.2.2).map (fun j => warped i j)),
        s.nodata,
        (match dres with
         | none => s.transform
         | some r => ⟨r.2, s.transform.b, s.transform.c, s.transform.d, -r.1, s.transform.f⟩),
        s.crs⟩ := by
  cases dres <;> simp [BandSample.resample, BandSample.make, band_shape_guard, hv]

lemma bandsample_resample_id_eq (s : BandSample) (warped : ℕ → ℕ → ℚ)
    (hv : s.crs.is_valid = true) :
    BandSample.resample s none none warped =
      .ok ⟨s.name,
        (List.range s.height).map (fun i => (List.range s.width).map (fun j => warped i j)),
        s.nodata, s.transform, s.crs⟩ := by
  simp [BandSample.resample, BandSample.make, band_shape_guard, hv]

lemma pyRound_nonneg {q : ℚ} (hq : 0 ≤ q) : 0 ≤ pyRound q := by
  have h0 : (0 : ℤ) ≤ ⌊q⌋ := Int.floor_nonneg.mpr hq
  unfold pyRound
  split_ifs <;> omega

lemma pyInt_nonneg {q : ℚ} (hq : 0 ≤ q) : 0 ≤ pyInt q := by
  unfold pyInt
  rw [if_pos hq]
  exact Int.floor_nonneg.mpr hq

/-! ## Claim theorems -/

/-- C1: for a `Band` whose raster has width 100, height 100 and affine
transform (1, 0, 0, 0, -1, 0), the call sample(10, 10, 20, 20) returns a
`BandSample` whose transform has c = 10 and f = -10 with a, b, d, e
unchanged, and whose width and height properties both equal 20. -/
theorem band_sample_scenario_100 :
    (Band.sample band100 10 10 20 20).map
      (fun s => (s.transform, s.width, s.height)) =
      Except.ok (⟨1, 0, 10, 0, -1, -10⟩, 20, 20) := by
  rw [band_sample_eq]
  simp only [band100, crsA, if_true]
  simp only [Except.map, BandSample.width, BandSample.height]
  refine congrArg Except.ok ?_
  refine Prod.ext ?_ (Prod.ext ?_ ?_)
  · show Affine.mk 1 0 (0 + (10 : ℕ) * 1) 0 (-1) (0 + (10 : ℕ) * (-1)) =
      Affine.mk 1 0 10 0 (-1) (-10)
    norm_num
  · show (((List.range 20).map _).headD []).length = 20
    rw [headD_map_range _ 20 (by norm_num)]
    simp
  · simp

/-- C2: `Band.sample` is boundless — the windowed read handed to the
constructor is exactly a (1, h, w) array whose out-of-range cells equal the
band's nodata value (0 when nodata is unset), and the resulting sample has
height h and width w; `BandSample.sample` for the same request instead
returns the truncated slice [y:y+h, x:x+w] of its in-memory array, of height
min(y+h, H) - y, never larger than requested and with no fill. -/
theorem sample_boundless_vs_truncating (bd : Band) (s : BandSample) (y x h w : ℕ)
    (hbv : bd.band.crs.is_valid = true) (hsv : s.crs.is_valid = true) :
    (boundlessRead bd.band y x h w (bd.band.nodata.getD 0)).length = 1
  ∧ (∀ plane ∈ boundlessRead bd.band y x h w (bd.band.nodata.getD 0),
      plane.length = h ∧ ∀ row ∈ plane, row.length = w)
  ∧ (∀ i j, i < h → j < w → (bd.band.height ≤ y + i ∨ bd.band.width ≤ x + j) →
      (((boundlessRead bd.band y x h w (bd.band.nodata.getD 0)).headD []).getD i []).getD j 0
        = bd.band.nodata.getD 0)
  ∧ (∃ t, Band.sample bd y x h w = .ok t
      ∧ t.raster = (boundlessRead bd.band y x h w (bd.band.nodata.getD 0)).headD []
      ∧ t.height = h ∧ (0 < h → t.width = w))
  ∧ (∃ r, BandSample.sample s y x h w = .ok r
      ∧ r.raster = (pySlice s.raster y (y + h)).map (fun row => pySlice row x (x + w))
      ∧ r.height = min (y + h) s.height - y
      ∧ r.height ≤ h) := by
  refine ⟨by simp [boundlessRead], ?_, ?_, ?_, ?_⟩
  · intro plane hplane
    simp only [boundlessRead, List.mem_singleton] at hplane
    subst hplane
    constructor
    · simp
    · intro row hrow
      simp only [List.mem_map] at hrow
      obtain ⟨i, _, rfl⟩ := hrow
      simp
  · intro i j hi hj hout
    simp only [boundlessRead, List.headD_cons]
    rw [getD_map_range _ h i hi, getD_map_range _ w j hj, if_neg]
    omega
  · refine ⟨_, by rw [band_sample_eq, if_pos hbv], ?_, ?_, ?_⟩
    · simp [boundlessRead]
    · simp [BandSample.height]
    · intro hh
      simp only [BandSample.width]
      rw [headD_map_range _ h hh]
      simp
  · refine ⟨_, by rw [bandsample_sample_eq, if_pos hsv], rfl, ?_, ?_⟩
    · simp [BandSample.height, pySlice, BandSample.raster]
    · simp only [BandSample.height, pySlice]
      simp
      omega

/-- Witness for C2: the 100 by 100 band with unset nodata, sampled at
(95, 95, 10, 10) — a window hanging over the right and bottom edges — fills
the out-of-range cell (9, 9) with 0, while the in-memory sub-sampling of the
2 by 2 `sampleA` at (1, 1, 5, 5) truncates to a single row. -/
theorem sample_boundless_vs_truncating_witness :
    ((((boundlessRead band100.band 95 95 10 10 (band100.band.nodata.getD 0)).headD []).getD 9 []).getD 9 0
        = band100.band.nodata.getD 0)
  ∧ (∃ r, BandSample.sample sampleA 1 1 5 5 = .ok r
      ∧ r.raster = (pySlice sampleA.raster 1 (1 + 5)).map (fun row => pySlice row 1 (1 + 5))
      ∧ r.height = min (1 + 5) sampleA.height - 1
      ∧ r.height ≤ 5) :=
  ⟨(sample_boundless_vs_truncating band100 sampleA 95 95 10 10 (by decide) (by decide)).2.2.1
      9 9 (by decide) (by decide) (Or.inl (by decide)),
   (sample_boundless_vs_truncating band100 sampleA 1 1 5 5 (by decide) (by decide)).2.2.2.2⟩

/-- C3: for a `Band` or `BandSample` of raster size W by H and positive tile
size (w, h), `generate_samples` yields exactly ceil(W/w) * ceil(H/h) samples;
the sequence equals the grid of window origins mapped through `sample`, that
grid enumerates, in order, all y offsets (j * h) for a given x offset (i * w)
before advancing x, and the requested windows tile [0,W) x [0,H): every
in-range pixel lies in exactly one requested window.  The sequence is a pure
function of its inputs, so calling the method again restarts it unchanged. -/
theorem generate_samples_tiling (bd : Band) (s : BandSample) (w h : ℕ)
    (hw : 0 < w) (hh : 0 < h) :
    (Band.generate_samples bd w h).length
        = ceilDivNat bd.band.width w * ceilDivNat bd.band.height h
  ∧ Band.generate_samples bd w h =
      (gridOrigins bd.band.width bd.band.height w h).map
        (fun q => Band.sample bd q.2 q.1 h w)
  ∧ (BandSample.generate_samples s w h).length
        = ceilDivNat s.width w * ceilDivNat s.height h
  ∧ BandSample.generate_samples s w h =
      (gridOrigins s.width s.height w h).map
        (fun q => BandSample.sample s q.2 q.1 h w)
  ∧ (∀ W H : ℕ, gridOrigins W H w h =
      (List.range (ceilDivNat W w)).flatMap (fun i =>
        (List.range (ceilDivNat H h)).map (fun j => (i * w, j * h))))
  ∧ (∀ px py, px < bd.band.width → py < bd.band.height →
      ∃! q : ℕ × ℕ, q ∈ gridOrigins bd.band.width bd.band.height w h ∧
        q.1 ≤ px ∧ px < q.1 + w ∧ q.2 ≤ py ∧ py < q.2 + h)
  ∧ (∀ px py, px < s.width → py < s.height →
      ∃! q : ℕ × ℕ, q ∈ gridOrigins s.width s.height w h ∧
        q.1 ≤ px ∧ px < q.1 + w ∧ q.2 ≤ py ∧ py < q.2 + h) := by
  refine ⟨?_, band_generate_samples_as_grid bd w h, ?_,
    bandsample_generate_samples_as_grid s w h,
    fun W H => gridOrigins_as_ranges W H w h, ?_, ?_⟩
  · rw [band_generate_samples_as_grid, List.length_map, length_gridOrigins]
  · rw [bandsample_generate_samples_as_grid, List.length_map, length_gridOrigins]
  · intro px py hx hy
    exact grid_cover hw hh hx hy
  · intro px py hx hy
    exact grid_cover hw hh hx hy

/-- Witness for C3 at the 5 by 3 band `band5` tiled with 2 by 2 windows:
ceil(5/2) * ceil(3/2) = 6 samples, and the pixel (4, 2) lies in exactly one
requested window. -/
theorem generate_samples_tiling_witness :
    (Band.generate_samples band5 2 2).length
        = ceilDivNat band5.band.width 2 * ceilDivNat band5.band.height 2
  ∧ (∃! q : ℕ × ℕ, q ∈ gridOrigins band5.band.width band5.band.height 2 2 ∧
      q.1 ≤ 4 ∧ 4 < q.1 + 2 ∧ q.2 ≤ 2 ∧ 2 < q.2 + 2) :=
  ⟨(generate_samples_tiling band5 sampleA 2 2 (by decide) (by decide)).1,
   (generate_samples_tiling band5 sampleA 2 2 (by decide) (by decide)).2.2.2.2.2.1
     4 2 (by decide) (by decide)⟩

/-- C6: `BandSample.bounds` returns the rectangle (left, bottom, right, top)
with left = transform.c, top = transform.f, right = left + transform.a * width
and bottom = top + transform.e * height; for positive width and height,
bottom < top whenever transform.e < 0 and left < right whenever
transform.a > 0. -/
theorem bandsample_bounds_spec (s : BandSample) :
    s.bounds.left = s.transform.c
  ∧ s.bounds.top = s.transform.f
  ∧ s.bounds.right = s.bounds.left + s.transform.a * (s.width : ℚ)
  ∧ s.bounds.bottom = s.bounds.top + s.transform.e * (s.height : ℚ)
  ∧ (s.transform.e < 0 → 0 < s.height → s.bounds.bottom < s.bounds.top)
  ∧ (0 < s.transform.a → 0 < s.width → s.bounds.left < s.bounds.right) := by
  refine ⟨rfl, rfl, rfl, rfl, ?_, ?_⟩
  · intro he hh
    have hq : (0 : ℚ) < (s.height : ℚ) := by exact_mod_cast hh
    have : s.transform.e * (s.height : ℚ) < 0 := mul_neg_of_neg_of_pos he hq
    simp only [BandSample.bounds]
    linarith
  · intro ha hw
    have hq : (0 : ℚ) < (s.width : ℚ) := by exact_mod_cast hw
    have : 0 < s.transform.a * (s.width : ℚ) := mul_pos ha hq
    simp only [BandSample.bounds]
    linarith

/-- Witness for C6 at the concrete sample `sampleA` (transform
(1, 0, 0, 0, -1, 0), 2 by 2 raster). -/
theorem bandsample_bounds_spec_witness :
    sampleA.bounds.bottom < sampleA.bounds.top
  ∧ sampleA.bounds.left < sampleA.bounds.right :=
  ⟨(bandsample_bounds_spec sampleA).2.2.2.2.1 (by decide) (by decide),
   (bandsample_bounds_spec sampleA).2.2.2.2.2 (by decide) (by decide)⟩

/-- C4: `Band.resample` with dst_res = (rx, ry) produces a Band whose width is
round(width / (rx / res.x)) and height is round(height / (ry / res.y))
(Python banker's rounding), and whose transform keeps b, c, d, f of the
source while setting a = rx and e = -ry; at the 100 by 100 band with
transform (1, 0, 0, 0, -1, 0) and dst_res = (2, 2) this gives width 50,
height 50 and transform (2, 0, 0, 0, -2, 0). -/
theorem band_resample_spec (bd : Band) (rx ry : ℚ) (fp : Option String)
    (rnd : String) (warp : ℕ → ℕ → ℚ)
    (hx : 0 < rx) (hy : 0 < ry) (ha : 0 < bd.res.1) (he : 0 < bd.res.2) :
    ((Band.resample bd (rx, ry) fp rnd warp).band.width : ℤ)
        = pyRound ((bd.band.width : ℚ) / (rx / bd.res.1))
  ∧ ((Band.resample bd (rx, ry) fp rnd warp).band.height : ℤ)
        = pyRound ((bd.band.height : ℚ) / (ry / bd.res.2))
  ∧ (Band.resample bd (rx, ry) fp rnd warp).band.transform
      = ⟨rx, bd.band.transform.b, bd.band.transform.c,
          bd.band.transform.d, -ry, bd.band.transform.f⟩ := by
  refine ⟨?_, ?_, rfl⟩
  · show ((pyRound ((bd.band.width : ℚ) / (rx / bd.res.1))).toNat : ℤ) = _
    exact Int.toNat_of_nonneg (pyRound_nonneg
      (div_nonneg (Nat.cast_nonneg _) (div_nonneg hx.le ha.le)))
  · show ((pyRound ((bd.band.height : ℚ) / (ry / bd.res.2))).toNat : ℤ) = _
    exact Int.toNat_of_nonneg (pyRound_nonneg
      (div_nonneg (Nat.cast_nonneg _) (div_nonneg hy.le he.le)))

/-- Witness for C4 at the spec scenario: `band100` resampled to dst_res
(2, 2). -/
theorem band_resample_spec_witness :
    ((Band.resample band100 (2, 2) none "d" (fun _ _ => 0)).band.width : ℤ)
        = pyRound ((band100.band.width : ℚ) / (2 / band100.res.1))
  ∧ (Band.resample band100 (2, 2) none "d" (fun _ _ => 0)).band.transform
      = ⟨2, band100.band.transform.b, band100.band.transform.c,
          band100.band.transform.d, -2, band100.band.transform.f⟩ :=
  ⟨(band_resample_spec band100 2 2 none "d" (fun _ _ => 0)
      (by decide) (by decide) (by decide) (by decide)).1,
   (band_resample_spec band100 2 2 none "d" (fun _ _ => 0)
      (by decide) (by decide) (by decide) (by decide)).2.2⟩

/-- C5: `BandSample.resample` with only dst_res = (p, q) produces an array of
exactly trunc(height * res[0] / p) rows, each of trunc(width * res[1] / q)
cells — integer truncation, not rounding, where (res[0], res[1]) =
(|transform.a|, |transform.e|) and (p, q) are the components of dst_res in
the positional pairing this method uses (index 0 for the height/y formula,
index 1 for the width/x formula, as in the spec's res.y/dst_res.y and
res.x/dst_res.x); with dst_shape given, dst_shape takes precedence and the
shape is (dst_shape[1], dst_shape[2]); with neither, the shape equals the
input shape. -/
theorem bandsample_resample_shape (s : BandSample) (p q : ℚ)
    (dres : Option (ℚ × ℚ)) (sh : ℕ × ℕ × ℕ) (warped : ℕ → ℕ → ℚ)
    (hv : s.crs.is_valid = true) (hp : 0 < p) (hq : 0 < q) :
    (∃ r, BandSample.resample s (some (p, q)) none warped = .ok r
      ∧ (r.raster.length : ℤ) = pyInt ((s.height : ℚ) * s.res.1 / p)
      ∧ ∀ row ∈ r.raster, (row.length : ℤ) = pyInt ((s.width : ℚ) * s.res.2 / q))
  ∧ (∃ r, BandSample.resample s dres (some sh) warped = .ok r
      ∧ r.raster.length = sh.2.1 ∧ ∀ row ∈ r.raster, row.length = sh.2.2)
  ∧ (∃ r, BandSample.resample s none none warped = .ok r
      ∧ r.raster.length = s.height ∧ ∀ row ∈ r.raster, row.length = s.width) := by
  refine ⟨?_, ?_, ?_⟩
  · refine ⟨_, bandsample_resample_res_eq s p q warped hv, ?_, ?_⟩
    · simp only [List.length_map, List.length_range]
      exact Int.toNat_of_nonneg (pyInt_nonneg
        (div_nonneg (mul_nonneg (Nat.cast_nonneg _) (abs_nonneg _)) hp.le))
    · intro row hrow
      simp only [List.mem_map] at hrow
      obtain ⟨i, _, rfl⟩ := hrow
      simp only [List.length_map, List.length_range]
      exact Int.toNat_of_nonneg (pyInt_nonneg
        (div_nonneg (mul_nonneg (Nat.cast_nonneg _) (abs_nonneg _)) hq.le))
  · refine ⟨_, bandsample_resample_shape_eq s dres sh warped hv, by simp, ?_⟩
    intro row hrow
    simp only [List.mem_map] at hrow
    obtain ⟨i, _, rfl⟩ := hrow
    simp
  · refine ⟨_, bandsample_resample_id_eq s warped hv, by simp [BandSample.height], ?_⟩
    intro row hrow
    simp only [List.mem_map] at hrow
    obtain ⟨i, _, rfl⟩ := hrow
    simp [BandSample.width]

/-- Witness for C5 at `sampleA` (2 by 2 raster, unit resolution) with
dst_res = (2, 2), dst_shape = (1, 3, 4). -/
theorem bandsample_resample_shape_witness :
    (∃ r, BandSample.resample sampleA (some (2, 2)) none (fun _ _ => 0) = .ok r
      ∧ (r.raster.length : ℤ) = pyInt ((sampleA.height : ℚ) * sampleA.res.1 / 2)
      ∧ ∀ row ∈ r.raster, (row.length : ℤ) = pyInt ((sampleA.width : ℚ) * sampleA.res.2 / 2))
  ∧ (∃ r, BandSample.resample sampleA (some (2, 2)) (some (1, 3, 4)) (fun _ _ => 0) = .ok r
      ∧ r.raster.length = (1, 3, 4).2.1 ∧ ∀ row ∈ r.raster, row.length = (1, 3, 4).2.2) :=
  ⟨(bandsample_resample_shape sampleA 2 2 (some (2, 2)) (1, 3, 4) (fun _ _ => 0)
      (by decide) (by decide) (by decide)).1,
   (bandsample_resample_shape sampleA 2 2 (some (2, 2)) (1, 3, 4) (fun _ _ => 0)
      (by decide) (by decide) (by decide)).2.1⟩

/-- C10: for dst_res = (p, q), `BandSample.resample` sets transform.a = q
(from dst_res[1]) and transform.e = -p (from dst_res[0]), keeping b, c, d, f
— the opposite axis order from `Band.resample`, which for the same pair sets
a = dst_res[0] = p and e = -dst_res[1] = -q. -/
theorem resample_axis_order (s : BandSample) (p q : ℚ) (warped : ℕ → ℕ → ℚ)
    (bd : Band) (fp : Option String) (rnd : String) (warp2 : ℕ → ℕ → ℚ)
    (hv : s.crs.is_valid = true) :
    (∃ r, BandSample.resample s (some (p, q)) none warped = .ok r
      ∧ r.transform = ⟨q, s.transform.b, s.transform.c,
          s.transform.d, -p, s.transform.f⟩)
  ∧ (Band.resample bd (p, q) fp rnd warp2).band.transform
      = ⟨p, bd.band.transform.b, bd.band.transform.c,
          bd.band.transform.d, -q, bd.band.transform.f⟩ := by
  exact ⟨⟨_, bandsample_resample_res_eq s p q warped hv, rfl⟩, rfl⟩

/-- Witness for C10 at `sampleA` and `band100` with dst_res = (2, 3). -/
theorem resample_axis_order_witness :
    (∃ r, BandSample.resample sampleA (some (2, 3)) none (fun _ _ => 0) = .ok r
      ∧ r.transform = ⟨3, sampleA.transform.b, sampleA.transform.c,
          sampleA.transform.d, -2, sampleA.transform.f⟩)
  ∧ (Band.resample band100 (2, 3) none "d" (fun _ _ => 0)).band.transform
      = ⟨2, band100.band.transform.b, band100.band.transform.c,
          band100.band.transform.d, -3, band100.band.transform.f⟩ :=
  resample_axis_order sampleA 2 3 (fun _ _ => 0) band100 none "d" (fun _ _ => 0) (by decide)

/-- C8: destroying a `Band` returned by resample or reproject with fp = none
closes the handle and then deletes the generated temporary file; destroying
one returned with an explicit fp, or one constructed by opening a path
directly, closes the handle but never deletes the file — the temporary flag
is false at direct construction and is set true only by the factories when
no destination path was supplied. -/
theorem band_tmp_file_lifecycle :
    (∀ rf p, (Band.init rf p).tmp_file = false
      ∧ (Band.init rf p).del = [.closeHandle p])
  ∧ (∀ bd r rnd warp,
      (Band.resample bd r none rnd warp).tmp_file = true
      ∧ (Band.resample bd r none rnd warp).del =
          [.closeHandle (Band.resample bd r none rnd warp).fp,
           .removeFile (Band.resample bd r none rnd warp).fp])
  ∧ (∀ bd r f rnd warp,
      (Band.resample bd r (some f) rnd warp).tmp_file = false
      ∧ (Band.resample bd r (some f) rnd warp).fp = f
      ∧ (Band.resample bd r (some f) rnd warp).del = [.closeHandle f])
  ∧ (∀ bd dst rnd parse utm calcDT warp,
      (resolveCRS dst parse utm).is_valid = true →
        (∃ nb, (Band.reproject bd dst none rnd parse utm calcDT warp).1 = .ok nb
          ∧ nb.tmp_file = true
          ∧ nb.del = [.closeHandle nb.fp, .removeFile nb.fp])
        ∧ ∀ f, ∃ nb, (Band.reproject bd dst (some f) rnd parse utm calcDT warp).1 = .ok nb
          ∧ nb.tmp_file = false ∧ nb.fp = f ∧ nb.del = [.closeHandle f]) := by
  refine ⟨fun rf p => ⟨rfl, rfl⟩, fun bd r rnd warp => ⟨rfl, rfl⟩,
    fun bd r f rnd warp => ⟨rfl, rfl, rfl⟩, ?_⟩
  intro bd dst rnd parse utm calcDT warp hvalid
  constructor
  · simp only [Band.reproject, hvalid]
    simp only [if_true]
    exact ⟨_, rfl, rfl, rfl⟩
  · intro f
    simp only [Band.reproject, hvalid]
    simp only [if_true]
    exact ⟨_, rfl, rfl, rfl, rfl⟩

/-- Witness for C8: reprojecting `band100` to the valid crs `crsB` with and
without an explicit destination path. -/
theorem band_tmp_file_lifecycle_witness :
    (∃ nb, (Band.reproject band100 (.crs crsB) none "d" (fun _ => crsA) crsA
        (⟨1, 0, 0, 0, -1, 0⟩, 10, 10) (fun _ _ => 0)).1 = .ok nb
      ∧ nb.tmp_file = true
      ∧ nb.del = [.closeHandle nb.fp, .removeFile nb.fp])
  ∧ ∀ f, ∃ nb, (Band.reproject band100 (.crs crsB) (some f) "d" (fun _ => crsA) crsA
        (⟨1, 0, 0, 0, -1, 0⟩, 10, 10) (fun _ _ => 0)).1 = .ok nb
      ∧ nb.tmp_file = false ∧ nb.fp = f ∧ nb.del = [.closeHandle f] :=
  band_tmp_file_lifecycle.2.2.2 band100 (.crs crsB) "d" (fun _ => crsA) crsA
    (⟨1, 0, 0, 0, -1, 0⟩, 10, 10) (fun _ _ => 0) (by decide)

/-- C9: `Band.reproject` and `BandSample.reproject` fail with a CRS-validity
error when the resolved destination crs is invalid, with no output file
created and the warp engine not invoked (empty effect list); the
`BandSample` constructor fails with a CRS-validity error on an invalid crs,
and any sample it does produce has a valid crs. -/
theorem reproject_crs_validation :
    (∀ bd dst fp rnd parse utm calcDT warp,
      (resolveCRS dst parse utm).is_valid = false →
        Band.reproject bd dst fp rnd parse utm calcDT warp = (.error .crsError, []))
  ∧ (∀ s dst parse utm calcDT warped,
      (resolveCRS dst parse utm).is_valid = false →
        BandSample.reproject s dst parse utm calcDT warped = (.error .crsError, []))
  ∧ (∀ name m crs transform nodata,
      crs.is_valid = false →
        BandSample.make name (.d2 m) crs transform nodata = .error .crsError)
  ∧ (∀ name arr crs transform nodata r,
      BandSample.make name arr crs transform nodata = .ok r →
        r.crs.is_valid = true) := by
  refine ⟨?_, ?_, ?_, ?_⟩
  · intro bd dst fp rnd parse utm calcDT warp hinv
    simp [Band.reproject, hinv]
  · intro s dst parse utm calcDT warped hinv
    simp [BandSample.reproject, hinv]
  · intro name m crs transform nodata hinv
    simp [BandSample.make, band_shape_guard, hinv]
  · intro name arr crs transform nodata r hok
    cases hg : band_shape_guard arr with
    | error e => simp [BandSample.make, hg] at hok
    | ok m =>
      by_cases hv : crs.is_valid
      · simp only [BandSample.make, hg, hv, if_true] at hok
        cases hok
        exact hv
      · simp [BandSample.make, hg, hv] at hok

/-- Witness for C9: reprojecting `band100` and `sampleA` to the invalid crs
`crsBad`, and constructing a `BandSample` with `crsBad`, all fail with
`crsError` and no effects; the constructor on `crsA` yields a sample whose
crs is valid. -/
theorem reproject_crs_validation_witness :
    (Band.reproject band100 (.crs crsBad) none "d" (fun _ => crsA) crsA
        (⟨1, 0, 0, 0, -1, 0⟩, 10, 10) (fun _ _ => 0) = (.error .crsError, []))
  ∧ (BandSample.reproject sampleA (.crs crsBad) (fun _ => crsA) crsA
        (⟨1, 0, 0, 0, -1, 0⟩, 10, 10) (fun _ _ => 0) = (.error .crsError, []))
  ∧ (BandSample.make "m" (.d2 [[1]]) crsBad ⟨1, 0, 0, 0, -1, 0⟩ 0 = .error .crsError) :=
  ⟨reproject_crs_validation.1 band100 (.crs crsBad) none "d" (fun _ => crsA) crsA
      (⟨1, 0, 0, 0, -1, 0⟩, 10, 10) (fun _ _ => 0) (by decide),
   reproject_crs_validation.2.1 sampleA (.crs crsBad) (fun _ => crsA) crsA
      (⟨1, 0, 0, 0, -1, 0⟩, 10, 10) (fun _ _ => 0) (by decide),
   reproject_crs_validation.2.2.1 "m" [[1]] crsBad ⟨1, 0, 0, 0, -1, 0⟩ 0 (by decide)⟩

/-- C7 counterexample: the claim says `BandSample.same` returns true
regardless of the other sample; at the concrete pair `sampleA`, `sampleB`
(identical except for the crs) it returns false, because the crs — unlike
transform, height and width — is compared against the other sample. -/
theorem bandsample_same_counterexample :
    BandSample.same sampleA sampleB = false := by decide

/-- C7 (amended): `BandSample.same` compares transform, height and width each
against self, so those three comparisons are vacuous, and the result reduces
to the one non-vacuous comparison: it returns true iff the two crs are equal,
regardless of the other sample's transform, height and width. -/
theorem bandsample_same_crs_only (s other : BandSample) :
    BandSample.same s other = decide (s.crs = other.crs) := by
  simp [BandSample.same]

end Aeronet
